import Mathlib

/-!
Verification development for the saas-review-scrapper repository.

The Python sources are shallowly embedded as Lean definitions:

* Calendar dates (Python `datetime.date` values) are modelled as integers
  `PyDate := Int`; the Python total order on dates is the integer order, and
  `d.isoformat()` is modelled by an abstract injective encoding
  `isoformat : PyDate -> String`.
* The external `dateutil` parser (called by `src/utils.py: parse_date_fuzzy`)
  is a parameter `du : String -> Except String PyDateTime`; the wrapper
  `parse_date_fuzzy` below is the embedding of the source function itself.
  Pipeline definitions abstract the composite `parse_date_fuzzy` on non-empty
  strings as a parameter `fuzzy : String -> Option PyDate`.
* Pydantic coercion of a string to `datetime.date` (field `date` of model
  `Review` in `src/models.py`) is abstracted as `pyd : String -> Option PyDate`.
* A Python dict value stored under the "date" key is `DVal`: absent/None,
  a string, or a date object - the only shapes the program produces there.
-/

abbrev PyDate := Int

/-- Model of a Python `datetime.datetime`: a calendar date plus a
time-of-day component (seconds); `dt.date()` drops the time component. -/
structure PyDateTime where
  dateOf : PyDate
  secondsOfDay : Nat
deriving DecidableEq

/-- Value stored under the "date" key of a raw review dict:
`None`/absent, a string, or a `datetime.date` object. -/
inductive DVal where
  | none : DVal
  | str : String → DVal
  | date : PyDate → DVal
deriving DecidableEq

/-- Embedding of `src/utils.py: parse_date_fuzzy`. The input is `None` or a
string; `if not s` catches `None` and the empty string; the
`try/except` around `dateutil.parser.parse` is the `Except` match, and
`dt.date()` projects the date component of the parsed datetime. -/
def parse_date_fuzzy (du : String → Except String PyDateTime)
    (s : Option String) : Option PyDate :=
  match s with
  | Option.none => Option.none
  | Option.some t =>
    if t = "" then Option.none
    else
      match du t with
      | Except.ok dt => Option.some dt.dateOf
      | Except.error _ => Option.none

/-- `parse_date_fuzzy` applied to a string, with the external parser
abstracted as `fuzzy : String -> Option PyDate` (its value on non-empty
strings). The empty string is falsy in Python, so it parses to `None`. -/
def pdf_str (fuzzy : String → Option PyDate) (s : String) : Option PyDate :=
  if s = "" then Option.none else fuzzy s

/-- Date lookup shared by the scrape loops and `should_stop_paging`
(`src/scrapers/base_scraper.py`, `src/scrapers/async_base_scraper.py`):
a date object is taken as-is, a string goes through `parse_date_fuzzy`
(for a date object fed back to `parse_date_fuzzy`, `str(d)` is its ISO
form, which dateutil parses back to the same date). -/
def parse_dval (fuzzy : String → Option PyDate) : DVal → Option PyDate
  | DVal.none => Option.none
  | DVal.str s => pdf_str fuzzy s
  | DVal.date d => Option.some d

/-- Python truthiness of a "date" dict entry: `None` and `""` are falsy. -/
def dval_truthy : DVal → Bool
  | DVal.none => false
  | DVal.str s => !(s = "")
  | DVal.date _ => true

/-- Raw review record: the dict shape produced by the extractors and
consumed by `Review(**r)` (`src/models.py` declares `extra="ignore"`, and
a key absent from the dict leaves the field at its `None` default).
Field order follows `src/models.py`. -/
structure RawReview where
  id : Option String
  title : Option String
  review : Option String
  date : DVal
  rating : Option Rat
  reviewer_name : Option String
  reviewer_role : Option String
  reviewer_company : Option String
  location : Option String
  source_url : Option String
  raw : Option (List (String × String))
deriving DecidableEq

/-- Convenience constructor for the record shape the extractors emit
(`title`, `review`, `date`, `rating`, `reviewer_name`, `source_url`;
remaining keys absent). -/
def mkRaw (title review : Option String) (date : DVal) (rating : Option Rat)
    (reviewer_name source_url : Option String) : RawReview :=
  ⟨Option.none, title, review, date, rating, reviewer_name,
   Option.none, Option.none, Option.none, source_url, Option.none⟩

/-- Embedding of the pydantic model `Review` from `src/models.py`:
`date` is an `Optional[Date]`, `rating` an `Optional[float]` constrained
by `ge=0, le=5`. -/
structure Review where
  id : Option String
  title : Option String
  review : Option String
  date : Option PyDate
  rating : Option Rat
  reviewer_name : Option String
  reviewer_role : Option String
  reviewer_company : Option String
  location : Option String
  source_url : Option String
  raw : Option (List (String × String))
deriving DecidableEq

/-- Pydantic lax coercion of the raw "date" entry to `Optional[Date]`:
`None` stays `None`, a date object is accepted, a string must parse as an
ISO date (abstracted by `pyd`); anything else is a validation error. -/
def pyd_coerce_date (pyd : String → Option PyDate) :
    DVal → Except String (Option PyDate)
  | DVal.none => Except.ok Option.none
  | DVal.date d => Except.ok (Option.some d)
  | DVal.str s =>
    match pyd s with
    | Option.some d => Except.ok (Option.some d)
    | Option.none => Except.error "date: invalid date format"

/-- Embedding of `Review(**r)` validation: the date entry must coerce, and
a present rating must satisfy `ge=0, le=5` (`src/models.py`, line 13);
any violation raises, i.e. returns `Except.error`. -/
def Review.validate (pyd : String → Option PyDate) (r : RawReview) :
    Except String Review :=
  match pyd_coerce_date pyd r.date with
  | Except.error e => Except.error e
  | Except.ok dd =>
    match r.rating with
    | Option.some q =>
      if 0 ≤ q ∧ q ≤ 5 then
        Except.ok ⟨r.id, r.title, r.review, dd, Option.some q,
          r.reviewer_name, r.reviewer_role, r.reviewer_company,
          r.location, r.source_url, r.raw⟩
      else Except.error "rating: out of range"
    | Option.none =>
      Except.ok ⟨r.id, r.title, r.review, dd, Option.none,
        r.reviewer_name, r.reviewer_role, r.reviewer_company,
        r.location, r.source_url, r.raw⟩

/-- Embedding of `Review.model_dump()` restricted to the `Review` fields:
the dumped dict holds the date back as a date object (python mode). -/
def Review.model_dump (v : Review) : RawReview :=
  ⟨v.id, v.title, v.review,
   (match v.date with
    | Option.some d => DVal.date d
    | Option.none => DVal.none),
   v.rating, v.reviewer_name, v.reviewer_role, v.reviewer_company,
   v.location, v.source_url, v.raw⟩

/-- Embedding of `_in_range` from `src/api.py` (lines 170-183). `req.start`
and `req.end` are required fields and date objects are always truthy, so
the `if req.start`/`if req.end` guards always take the comparison path. -/
def in_range (fuzzy : String → Option PyDate) (start end_ : PyDate) :
    DVal → Bool
  | DVal.none => true
  | DVal.str s =>
    match pdf_str fuzzy s with
    | Option.none => true
    | Option.some dd => !(decide (dd < start)) && !(decide (end_ < dd))
  | DVal.date dd => !(decide (dd < start)) && !(decide (end_ < dd))

/-- Python list slice `l[:n]` for `n : Int`: a nonnegative bound keeps the
first `n` elements, a negative bound drops `|n|` elements from the end
(clamped at zero). Used for `raw_reviews[: req.limit]` and
`collected[:limit]`. -/
def pySliceTo (n : Int) (l : List α) : List α :=
  if n < 0 then l.take (l.length - (-n).toNat) else l.take n.toNat

/-- The per-record loop of `src/api.py` lines 190-203: validate each raw
record in order; a success is appended to the model list, a failure
increments the invalid counter. Returns (review_models, invalid); the
recursion processes the list front to back, so the successes appear in
arrival order exactly as the append loop produces them. -/
def normalize_loop (pyd : String → Option PyDate) :
    List RawReview → List Review × Nat
  | [] => ([], 0)
  | r :: rs =>
    let res := normalize_loop pyd rs
    match Review.validate pyd r with
    | Except.ok v => (v :: res.1, res.2)
    | Except.error _ => (res.1, res.2 + 1)

/-- The raw list after the date-window filter of `src/api.py` line 185. -/
def filtered_raws (fuzzy : String → Option PyDate) (start end_ : PyDate)
    (raws : List RawReview) : List RawReview :=
  raws.filter (fun r => in_range fuzzy start end_ r.date)

/-- The raw list after the filter and the limit cap of `src/api.py`
lines 185-188 (`raw_reviews = raw_reviews[: req.limit]` when a limit is
given). -/
def capped_raws (fuzzy : String → Option PyDate) (start end_ : PyDate)
    (limit : Option Int) (raws : List RawReview) : List RawReview :=
  match limit with
  | Option.some n => pySliceTo n (filtered_raws fuzzy start end_ raws)
  | Option.none => filtered_raws fuzzy start end_ raws

/-- The metadata counters reported by `src/api.py` lines 213-220. -/
structure ScrapeMeta where
  reviews_found : Nat
  raw_reviews_count : Nat
  invalid_reviews : Nat
deriving DecidableEq

/-- Reviews plus metadata, the observable part of the `ScrapeResult`. -/
structure ScrapeOutcome where
  reviews : List Review
  meta : ScrapeMeta
deriving DecidableEq

/-- Embedding of the tail of the `/scrape` endpoint (`src/api.py` lines
185-221): date-window filter, then limit cap, then per-record validation,
then metadata assembly. -/
def scrape_tail (fuzzy pyd : String → Option PyDate) (start end_ : PyDate)
    (limit : Option Int) (raws : List RawReview) : ScrapeOutcome :=
  let capped := capped_raws fuzzy start end_ limit raws
  let nl := normalize_loop pyd capped
  ⟨nl.1,
   ⟨nl.1.length, capped.length, nl.2⟩⟩

/-- The per-page date filter of the scrape loops
(`src/scrapers/base_scraper.py` lines 48-61 and
`src/scrapers/async_base_scraper.py` lines 88-100, identical logic): an
unparsable or absent date keeps the record unchanged; a parsable date
keeps the record, with its date rewritten to the ISO string, exactly when
it falls in the window; otherwise the record is dropped. -/
def keep_record (fuzzy : String → Option PyDate) (isoformat : PyDate → String)
    (start end_ : PyDate) (r : RawReview) : Option RawReview :=
  match parse_dval fuzzy r.date with
  | Option.none => Option.some r
  | Option.some d =>
    if start ≤ d ∧ d ≤ end_ then
      Option.some
        ⟨r.id, r.title, r.review, DVal.str (isoformat d), r.rating,
         r.reviewer_name, r.reviewer_role, r.reviewer_company, r.location,
         r.source_url, r.raw⟩
    else Option.none

/-- First accumulator of `should_stop_paging` (both variants): some record
on the page has a parsable date. -/
def any_parsable (fuzzy : String → Option PyDate) (page : List RawReview) :
    Bool :=
  page.any (fun r => (parse_dval fuzzy r.date).isSome)

/-- Second accumulator of `should_stop_paging` (both variants): some
record on the page has a parsable date inside the window. -/
def any_in_range (fuzzy : String → Option PyDate) (start end_ : PyDate)
    (page : List RawReview) : Bool :=
  page.any (fun r =>
    match parse_dval fuzzy r.date with
    | Option.some d => decide (start ≤ d) && decide (d ≤ end_)
    | Option.none => false)

/-- The `older` check of the async variant
(`src/scrapers/async_base_scraper.py` lines 156-162): `older` is cleared
only by a record with a truthy date entry whose parse succeeds with a
date not strictly before `start`. -/
def older_async (fuzzy : String → Option PyDate) (start : PyDate)
    (page : List RawReview) : Bool :=
  page.all (fun r =>
    if dval_truthy r.date then
      match parse_dval fuzzy r.date with
      | Option.some pd => decide (pd < start)
      | Option.none => true
    else true)

/-- The `older` check of the sync variant (`src/scrapers/base_scraper.py`
line 132): every record with a truthy date entry must parse successfully
to a date strictly before `start` (`pd and pd < start`, so an unparsable
truthy date makes the conjunct falsy and defeats `all`). -/
def older_sync (fuzzy : String → Option PyDate) (start : PyDate)
    (page : List RawReview) : Bool :=
  page.all (fun r =>
    if dval_truthy r.date then
      match parse_dval fuzzy r.date with
      | Option.some pd => decide (pd < start)
      | Option.none => false
    else true)

/-- Embedding of `AsyncBaseScraper.should_stop_paging`
(`src/scrapers/async_base_scraper.py` lines 142-165). -/
def should_stop_paging_async (fuzzy : String → Option PyDate)
    (start end_ : PyDate) (page : List RawReview) : Bool :=
  any_parsable fuzzy page && !(any_in_range fuzzy start end_ page)
    && older_async fuzzy start page

/-- Embedding of `BaseScraper.should_stop_paging`
(`src/scrapers/base_scraper.py` lines 111-135). -/
def should_stop_paging_sync (fuzzy : String → Option PyDate)
    (start end_ : PyDate) (page : List RawReview) : Bool :=
  any_parsable fuzzy page && !(any_in_range fuzzy start end_ page)
    && older_sync fuzzy start page

/-- Embedding of the paging `while` loop of `scrape` (both base scrapers):
the input list is the successive per-page extraction results, with
`go_to_next_page` succeeding exactly while further pages remain. Returns
the accumulated kept records and the number of pages extracted. An empty
extraction breaks immediately; a positive `should_stop_paging` breaks
after accumulating the kept records of the current page. -/
def scrape_loop (shouldStop : List RawReview → Bool)
    (keep : RawReview → Option RawReview) :
    List (List RawReview) → List RawReview × Nat
  | [] => ([], 0)
  | page :: rest =>
    if page = [] then ([], 1)
    else
      let kept := page.filterMap keep
      if shouldStop page then (kept, 1)
      else
        match rest with
        | [] => (kept, 1)
        | p2 :: rest2 =>
          let res := scrape_loop shouldStop keep (p2 :: rest2)
          (kept ++ res.1, res.2 + 1)

/-- Python `or` on optional strings: the empty string is falsy and falls
through to the right operand. -/
def pyOrS : Option String → Option String → Option String
  | Option.some s, b => if s = "" then b else Option.some s
  | Option.none, b => b

/-- Python `or` on optional numbers: zero is falsy and falls through. -/
def pyOrQ : Option Rat → Option Rat → Option Rat
  | Option.some q, b => if q = 0 then b else Option.some q
  | Option.none, b => b

/-- The "user" value of a G2 API item: a dict (only its "name" entry is
consulted) or some non-dict value. -/
inductive G2User where
  | dict : Option String → G2User
  | nonDict : String → G2User
deriving DecidableEq

/-- One item of a G2 data-API response page, with the keys consulted by
`fetch_g2_reviews_api` (`src/scrapers/g2_scraper.py` lines 450-461). -/
structure G2ApiItem where
  title : Option String
  headline : Option String
  review : Option String
  body : Option String
  text : Option String
  created_at : Option String
  date : Option String
  published_at : Option String
  rating : Option Rat
  stars : Option Rat
  user : Option G2User
  reviewer_name : Option String
  url : Option String
  source_url : Option String
deriving DecidableEq

/-- The "date" entry written by the API normalizers:
`d.isoformat() if d else dt` with `dt` the first truthy raw date string. -/
def apiDateEntry (isoformat : PyDate → String) (d : Option PyDate)
    (dt : Option String) : DVal :=
  match d with
  | Option.some dd => DVal.str (isoformat dd)
  | Option.none =>
    match dt with
    | Option.some s => DVal.str s
    | Option.none => DVal.none

/-- The per-item normalization of `fetch_g2_reviews_api`
(`src/scrapers/g2_scraper.py` lines 450-476): alias resolution by Python
`or`, fuzzy date parse of the first truthy date alias, reviewer from the
user dict when the "user" value is a dict, else the `reviewer_name` key. -/
def g2_normalize_item (fuzzy : String → Option PyDate)
    (isoformat : PyDate → String) (it : G2ApiItem) : RawReview :=
  let title := pyOrS it.title it.headline
  let body := pyOrS it.review (pyOrS it.body it.text)
  let dt := pyOrS it.created_at (pyOrS it.date it.published_at)
  let rating := pyOrQ it.rating it.stars
  let reviewer :=
    match it.user with
    | Option.some (G2User.dict n) => n
    | Option.some (G2User.nonDict _) => it.reviewer_name
    | Option.none => it.reviewer_name
  let src := pyOrS it.url it.source_url
  let d : Option PyDate :=
    match dt with
    | Option.some s => pdf_str fuzzy s
    | Option.none => Option.none
  mkRaw title body (apiDateEntry isoformat d dt) rating reviewer src

/-- The "user" value of a Capterra API item: a dict with "name" and
"displayName" entries, or some non-dict value. -/
inductive CapUser where
  | dict : Option String → Option String → CapUser
  | nonDict : String → CapUser
deriving DecidableEq

/-- One item of a Capterra reviews-API response page, with the keys
consulted by `fetch_capterra_reviews_api`
(`src/scrapers/capterra_scraper.py` lines 468-476). -/
structure CapApiItem where
  title : Option String
  headline : Option String
  review : Option String
  text : Option String
  body : Option String
  date : Option String
  createdAt : Option String
  created_at : Option String
  rating : Option Rat
  overallRating : Option Rat
  user : Option CapUser
deriving DecidableEq

/-- The per-item normalization of `fetch_capterra_reviews_api`
(`src/scrapers/capterra_scraper.py` lines 468-494), before its inline
date filtering: `user = it.get("user") or {}` makes an absent user an
empty dict, so the reviewer lookup runs with both entries absent. -/
def capterra_normalize_item (fuzzy : String → Option PyDate)
    (isoformat : PyDate → String) (it : CapApiItem) : RawReview :=
  let title := pyOrS it.title it.headline
  let body := pyOrS it.review (pyOrS it.text it.body)
  let dt := pyOrS it.date (pyOrS it.createdAt it.created_at)
  let rating := pyOrQ it.rating it.overallRating
  let reviewer :=
    match it.user with
    | Option.some (CapUser.dict n dn) => pyOrS n dn
    | Option.some (CapUser.nonDict _) => Option.none
    | Option.none => pyOrS Option.none Option.none
  let d : Option PyDate :=
    match dt with
    | Option.some s => pdf_str fuzzy s
    | Option.none => Option.none
  mkRaw title body (apiDateEntry isoformat d dt) rating reviewer Option.none

/-- The "author" value of a JSON-LD Review node: a dict (its "name" entry
is the reviewer) or a plain value taken as the reviewer itself. -/
inductive LdAuthor where
  | dict : Option String → LdAuthor
  | plain : Option String → LdAuthor
deriving DecidableEq

/-- The "ratingValue" entry of a JSON-LD reviewRating dict: a value that
`float()` coerces to the given number, or one on which `float()` raises. -/
inductive LdRatingValue where
  | num : Rat → LdRatingValue
  | notNum : LdRatingValue
deriving DecidableEq

/-- The "reviewRating" value of a JSON-LD Review node: a dict with an
optional "ratingValue" entry, or some non-dict value. -/
inductive LdRR where
  | dict : Option LdRatingValue → LdRR
  | nonDict : LdRR
deriving DecidableEq

/-- A JSON-LD node, with the keys consulted by
`parse_g2_reviews_from_html` (`src/scrapers/g2_scraper.py` lines 506-530). -/
structure LdNode where
  atType : String
  name : Option String
  headline : Option String
  reviewBody : Option String
  description : Option String
  datePublished : Option String
  dateCreated : Option String
  reviewRating : Option LdRR
  author : Option LdAuthor
deriving DecidableEq

/-- One entry of a parsed JSON-LD script block: a dict node or a non-dict
JSON value (skipped by the `isinstance(node, dict)` guard). -/
inductive LdEntry where
  | node : LdNode → LdEntry
  | nonDict : LdEntry
deriving DecidableEq

/-- One JSON-LD script block found in the HTML: either its raw text is
empty or fails `json.loads` (skipped), or it parses to a list of entries
(a single dict counts as a one-entry list). -/
inductive LdScript where
  | invalid : LdScript
  | parsed : List LdEntry → LdScript
deriving DecidableEq

/-- The field mapping applied to each JSON-LD node of type "Review"
(`src/scrapers/g2_scraper.py` lines 511-530). The emitted dict has no
`source_url` key. Note `parse_date_fuzzy` receives `dt`, which may be
`None` when both date aliases are absent. -/
def ld_node_to_raw (fuzzy : String → Option PyDate)
    (isoformat : PyDate → String) (n : LdNode) : RawReview :=
  let title := pyOrS n.name n.headline
  let body := pyOrS n.reviewBody n.description
  let dt := pyOrS n.datePublished n.dateCreated
  let rating : Option Rat :=
    match n.reviewRating with
    | Option.some (LdRR.dict (Option.some (LdRatingValue.num q))) =>
      Option.some q
    | Option.some (LdRR.dict (Option.some LdRatingValue.notNum)) =>
      Option.none
    | Option.some (LdRR.dict Option.none) => Option.none
    | Option.some LdRR.nonDict => Option.none
    | Option.none => Option.none
  let reviewer :=
    match n.author with
    | Option.some (LdAuthor.dict nm) => nm
    | Option.some (LdAuthor.plain a) => a
    | Option.none => Option.none
  let d : Option PyDate :=
    match dt with
    | Option.some s => pdf_str fuzzy s
    | Option.none => Option.none
  mkRaw title body (apiDateEntry isoformat d dt) rating reviewer Option.none

/-- Embedding of `parse_g2_reviews_from_html`
(`src/scrapers/g2_scraper.py` lines 487-531), over the abstracted list of
JSON-LD script blocks found in the snapshot: invalid blocks and non-dict
entries are skipped, nodes whose "@type" is not "Review" are skipped, the
rest are mapped in order. -/
def parse_g2_reviews_from_html (fuzzy : String → Option PyDate)
    (isoformat : PyDate → String) (scripts : List LdScript) :
    List RawReview :=
  (scripts.map (fun b =>
    match b with
    | LdScript.invalid => []
    | LdScript.parsed ns =>
      ns.filterMap (fun e =>
        match e with
        | LdEntry.nonDict => Option.none
        | LdEntry.node n =>
          if n.atType = "Review" then
            Option.some (ld_node_to_raw fuzzy isoformat n)
          else Option.none))).flatten

/-- Error raised by `fetch_g2_reviews_api` on a failing HTTP response
(`src/scrapers/g2_scraper.py` lines 439-442): a 401 is the distinct
unauthorized error; any other status of at least 400 carries the status
and the response body truncated to 300 characters. -/
inductive G2ApiError where
  | unauthorized : G2ApiError
  | apiError : Nat → String → G2ApiError
deriving DecidableEq

/-- One HTTP response from the G2 data API, as consumed by the client:
status code, response text (for error truncation), and the item list
extracted from the JSON payload (`data.get("data")` for a dict payload, a
list payload itself otherwise; a falsy value is the empty list). -/
structure G2Resp where
  status : Nat
  text : String
  items : List G2ApiItem
deriving DecidableEq

/-- The inner `for it in items` loop of `fetch_g2_reviews_api`
(`src/scrapers/g2_scraper.py` lines 450-478): items are normalized and
appended in order; once a limit is set and the collected length reaches
it, the function returns `collected[:limit]` immediately (flag `true`). -/
def g2_add_items (fuzzy : String → Option PyDate)
    (isoformat : PyDate → String) (limit : Option Int) :
    List G2ApiItem → List RawReview → List RawReview × Bool
  | [], coll => (coll, false)
  | it :: rest, coll =>
    let coll2 := coll ++ [g2_normalize_item fuzzy isoformat it]
    match limit with
    | Option.some n =>
      if n ≤ (coll2.length : Int) then (pySliceTo n coll2, true)
      else g2_add_items fuzzy isoformat limit rest coll2
    | Option.none => g2_add_items fuzzy isoformat limit rest coll2

/-- The paging `while` loop of `fetch_g2_reviews_api`
(`src/scrapers/g2_scraper.py` lines 429-485). The input list holds the
successive HTTP responses, page 1 first (the client requests page `k+1`
only after consuming page `k`); the second component counts requests
actually made. A 401 raises the unauthorized error, any other status of
at least 400 raises with the truncated body, an empty page breaks, a page
shorter than `per_page = 50` breaks after collection, and reaching the
limit returns early. An exhausted input list models an unbounded run cut
off by the environment. -/
def fetch_g2_go (fuzzy : String → Option PyDate)
    (isoformat : PyDate → String) (limit : Option Int) :
    List G2Resp → List RawReview →
    Except G2ApiError (List RawReview) × Nat
  | [], coll => (Except.ok coll, 0)
  | resp :: rest, coll =>
    if resp.status = 401 then (Except.error G2ApiError.unauthorized, 1)
    else if 400 ≤ resp.status then
      (Except.error (G2ApiError.apiError resp.status (resp.text.take 300)), 1)
    else if resp.items = [] then (Except.ok coll, 1)
    else
      let step := g2_add_items fuzzy isoformat limit resp.items coll
      if step.2 then (Except.ok step.1, 1)
      else if resp.items.length < 50 then (Except.ok step.1, 1)
      else
        let res := fetch_g2_go fuzzy isoformat limit rest step.1
        (res.1, res.2 + 1)

/-- Embedding of `fetch_g2_reviews_api` itself: the loop starts with an
empty `collected` list at page 1. -/
def fetch_g2_reviews_api (fuzzy : String → Option PyDate)
    (isoformat : PyDate → String) (limit : Option Int)
    (resps : List G2Resp) : Except G2ApiError (List RawReview) × Nat :=
  fetch_g2_go fuzzy isoformat limit resps []

/-- The parsable dates found on a page, in record order (spec-side view
used to state the early-stop property). -/
def page_parsable_dates (fuzzy : String → Option PyDate)
    (page : List RawReview) : List PyDate :=
  page.filterMap (fun r => parse_dval fuzzy r.date)

/-- The early-stop condition exactly as the spec states it: at least one
record on the page has a parsable date, none of the parsable dates lies
in the window, and every parsable date is strictly older than the window
start. Written from the words of the spec, to be compared with the
`should_stop_paging` embeddings. -/
def claim_stop_condition (fuzzy : String → Option PyDate)
    (start end_ : PyDate) (page : List RawReview) : Prop :=
  page_parsable_dates fuzzy page ≠ []
  ∧ (∀ d ∈ page_parsable_dates fuzzy page, ¬(start ≤ d ∧ d ≤ end_))
  ∧ (∀ d ∈ page_parsable_dates fuzzy page, d < start)

/-- Every record on the page has a parsable date strictly older than
`start` (the page-2 shape of the spec scenario for the early stop). -/
def all_parsable_older (fuzzy : String → Option PyDate) (start : PyDate)
    (page : List RawReview) : Bool :=
  page.all (fun r =>
    match parse_dval fuzzy r.date with
    | Option.some d => decide (d < start)
    | Option.none => false)

/-! Concrete instantiations of the abstract external parsers, used by the
closed witness and counterexample theorems. `fuzzy0` plays the dateutil
fuzzy parser (it understands both the raw date strings dNNN and the ISO
encodings iNNN), `iso0` plays `date.isoformat()`, and `pyd0` plays the
pydantic ISO-only date coercion (it understands only the iNNN encodings,
being strictly less permissive than the fuzzy parser). -/

def fuzzy0 : String → Option PyDate := fun s =>
  if s = "d020" then Option.some 20
  else if s = "d050" then Option.some 50
  else if s = "d100" then Option.some 100
  else if s = "d150" then Option.some 150
  else if s = "d180" then Option.some 180
  else if s = "i020" then Option.some 20
  else if s = "i050" then Option.some 50
  else if s = "i100" then Option.some 100
  else if s = "i150" then Option.some 150
  else if s = "i180" then Option.some 180
  else Option.none

def iso0 : PyDate → String := fun d =>
  if d = 20 then "i020"
  else if d = 50 then "i050"
  else if d = 100 then "i100"
  else if d = 150 then "i150"
  else if d = 180 then "i180"
  else "i000"

def pyd0 : String → Option PyDate := fun s =>
  if s = "i020" then Option.some 20
  else if s = "i050" then Option.some 50
  else if s = "i100" then Option.some 100
  else if s = "i150" then Option.some 150
  else if s = "i180" then Option.some 180
  else Option.none

/-- A G2 API item with every key absent. -/
def g2item0 : G2ApiItem :=
  ⟨Option.none, Option.none, Option.none, Option.none, Option.none,
   Option.none, Option.none, Option.none, Option.none, Option.none,
   Option.none, Option.none, Option.none, Option.none⟩

/-- A G2 API item carrying an empty-string title next to a headline. -/
def g2_item_blank_title : G2ApiItem :=
  ⟨Option.some "", Option.some "Great", Option.none, Option.none,
   Option.none, Option.none, Option.none, Option.none, Option.none,
   Option.none, Option.none, Option.none, Option.none, Option.none⟩

/-- A Capterra API item carrying an empty-string title next to a
headline. -/
def cap_item_blank_title : CapApiItem :=
  ⟨Option.some "", Option.some "Great", Option.none, Option.none,
   Option.none, Option.none, Option.none, Option.none, Option.none,
   Option.none, Option.none⟩

/-- A JSON-LD Review node of the offline-snapshot fixture: only the
"@type" and "datePublished" entries are present. -/
def c5_node (s : String) : LdNode :=
  ⟨"Review", Option.none, Option.none, Option.none, Option.none,
   Option.some s, Option.none, Option.none, Option.none⟩

/-- The offline-snapshot fixture: one JSON-LD script block holding four
Review nodes whose datePublished strings are the four arguments. -/
def c5_scripts (s1 s2 s3 s4 : String) : List LdScript :=
  [LdScript.parsed
    [LdEntry.node (c5_node s1), LdEntry.node (c5_node s2),
     LdEntry.node (c5_node s3), LdEntry.node (c5_node s4)]]

/-- A page holding one record whose date parses strictly before the
window and one record with a truthy but unparsable date string. -/
def c3_cex_page : List RawReview :=
  [mkRaw Option.none Option.none (DVal.str "d020") Option.none Option.none
    Option.none,
   mkRaw Option.none Option.none (DVal.str "junk") Option.none Option.none
    Option.none]

/-- Page 1 of the concrete paging scenario: one in-window date. -/
def c3_p1 : List RawReview :=
  [mkRaw Option.none Option.none (DVal.str "d150") Option.none Option.none
    Option.none]

/-- Page 2 of the concrete paging scenario: one date strictly before the
window start. -/
def c3_p2 : List RawReview :=
  [mkRaw Option.none Option.none (DVal.str "d020") Option.none Option.none
    Option.none]

/-- Page 3 of the concrete paging scenario: it exists but must never be
requested. -/
def c3_p3 : List RawReview :=
  [mkRaw Option.none Option.none (DVal.str "d100") Option.none Option.none
    Option.none]

/-- Ten raw records of which exactly three fall in the window [100, 200]:
seven date objects strictly before it and three parsable ISO strings
inside it. -/
def c4_raws : List RawReview :=
  [mkRaw Option.none Option.none (DVal.date 1) Option.none Option.none
    Option.none,
   mkRaw Option.none Option.none (DVal.date 2) Option.none Option.none
    Option.none,
   mkRaw Option.none Option.none (DVal.date 3) Option.none Option.none
    Option.none,
   mkRaw Option.none Option.none (DVal.str "i100") Option.none Option.none
    Option.none,
   mkRaw Option.none Option.none (DVal.date 4) Option.none Option.none
    Option.none,
   mkRaw Option.none Option.none (DVal.str "i150") Option.none Option.none
    Option.none,
   mkRaw Option.none Option.none (DVal.date 5) Option.none Option.none
    Option.none,
   mkRaw Option.none Option.none (DVal.str "i180") Option.none Option.none
    Option.none,
   mkRaw Option.none Option.none (DVal.date 6) Option.none Option.none
    Option.none,
   mkRaw Option.none Option.none (DVal.date 7) Option.none Option.none
    Option.none]

/-- A raw record with rating 7 on the 5-point scale, date inside the
window [100, 200]. -/
def c2_bad_raw : RawReview :=
  mkRaw (Option.some "t") Option.none (DVal.date 150) (Option.some 7)
    Option.none Option.none

/-- A raw record that validates successfully. -/
def c9_raw0 : RawReview :=
  mkRaw (Option.some "t") (Option.some "b") (DVal.date 120)
    (Option.some (7 / 2)) (Option.some "n") Option.none

/-- The canonical review obtained from `c9_raw0`. -/
def c9_rev0 : Review :=
  ⟨Option.none, Option.some "t", Option.some "b", Option.some 120,
   Option.some (7 / 2), Option.some "n", Option.none, Option.none,
   Option.none, Option.none, Option.none⟩

/-- A successful G2 API response carrying a full page of 50 items. -/
def c8_resp_full : G2Resp := ⟨200, "", List.replicate 50 g2item0⟩

/-- A successful G2 API response carrying a single item. -/
def c8_resp_short : G2Resp := ⟨200, "", [g2item0]⟩

/-! Helper lemmas about the pipeline definitions. -/

theorem normalize_loop_counts (pyd : String → Option PyDate)
    (rs : List RawReview) :
    (normalize_loop pyd rs).1.length + (normalize_loop pyd rs).2
      = rs.length := by
  induction rs with
  | nil => simp [normalize_loop]
  | cons r rs ih =>
    cases hv : Review.validate pyd r <;>
      simp [normalize_loop, hv] <;> omega

theorem normalize_loop_fst (pyd : String → Option PyDate)
    (rs : List RawReview) :
    (normalize_loop pyd rs).1
      = rs.filterMap (fun r => (Review.validate pyd r).toOption) := by
  induction rs with
  | nil => simp [normalize_loop]
  | cons r rs ih =>
    cases hv : Review.validate pyd r <;>
      simp [normalize_loop, List.filterMap_cons, hv, Except.toOption, ih]

theorem normalize_loop_snd (pyd : String → Option PyDate)
    (rs : List RawReview) :
    (normalize_loop pyd rs).2
      = (rs.filter (fun r => !(Review.validate pyd r).isOk)).length := by
  induction rs with
  | nil => simp [normalize_loop]
  | cons r rs ih =>
    cases hv : Review.validate pyd r <;>
      simp [normalize_loop, List.filter_cons, hv, Except.isOk, Except.toBool,
        ih]

theorem in_range_parsed (fuzzy : String → Option PyDate)
    (start end_ : PyDate) (s : String) (d : PyDate)
    (h : pdf_str fuzzy s = Option.some d) :
    in_range fuzzy start end_ (DVal.str s) = true
      ↔ (start ≤ d ∧ d ≤ end_) := by
  simp [in_range, h]

theorem in_range_date (fuzzy : String → Option PyDate)
    (start end_ : PyDate) (d : PyDate) :
    in_range fuzzy start end_ (DVal.date d) = true
      ↔ (start ≤ d ∧ d ≤ end_) := by
  simp [in_range]

/-! Claim theorems. -/

/-- C7: the Date Normalizer `parse_date_fuzzy` is total over its embedding
(its codomain is `Option PyDate`, so it never raises): it returns `none`
for a `None` input and for the empty string, and for every other string
it either returns `none` (the parser failed, i.e. the `except` branch) or
the calendar-date component of the successfully parsed datetime, with the
time-of-day component discarded. -/
theorem c7_date_normalizer_total (du : String → Except String PyDateTime) :
    parse_date_fuzzy du Option.none = Option.none ∧
    parse_date_fuzzy du (Option.some "") = Option.none ∧
    ∀ s : String,
      parse_date_fuzzy du (Option.some s) = Option.none ∨
      ∃ dt : PyDateTime, du s = Except.ok dt ∧
        parse_date_fuzzy du (Option.some s) = Option.some dt.dateOf := by
  refine ⟨rfl, rfl, ?_⟩
  intro s
  by_cases hs : s = ""
  · subst hs
    left
    rfl
  · cases hdu : du s with
    | ok dt =>
      right
      exact ⟨dt, rfl, by simp [parse_date_fuzzy, hs, hdu]⟩
    | error e =>
      left
      simp [parse_date_fuzzy, hs, hdu]

/-- C10: for every run of the endpoint pipeline, the metadata satisfies
reviews_found + invalid_reviews = raw_reviews_count, where
raw_reviews_count is the number of raw records left after the date-window
filter and the limit cap (not the pre-filter extraction count) and
reviews_found is the length of the returned review list. -/
theorem c10_meta_accounting (fuzzy pyd : String → Option PyDate)
    (start end_ : PyDate) (limit : Option Int) (raws : List RawReview) :
    (scrape_tail fuzzy pyd start end_ limit raws).meta.reviews_found
        + (scrape_tail fuzzy pyd start end_ limit raws).meta.invalid_reviews
      = (scrape_tail fuzzy pyd start end_ limit raws).meta.raw_reviews_count
    ∧ (scrape_tail fuzzy pyd start end_ limit raws).meta.reviews_found
      = (scrape_tail fuzzy pyd start end_ limit raws).reviews.length
    ∧ (scrape_tail fuzzy pyd start end_ limit raws).meta.raw_reviews_count
      = (capped_raws fuzzy start end_ limit raws).length := by
  refine ⟨?_, rfl, rfl⟩
  exact normalize_loop_counts pyd (capped_raws fuzzy start end_ limit raws)

theorem validate_ok_inv (pyd : String → Option PyDate) (r : RawReview)
    (v : Review) (h : Review.validate pyd r = Except.ok v) :
    pyd_coerce_date pyd r.date = Except.ok v.date
    ∧ v.id = r.id ∧ v.title = r.title ∧ v.review = r.review
    ∧ v.rating = r.rating ∧ v.reviewer_name = r.reviewer_name
    ∧ v.reviewer_role = r.reviewer_role
    ∧ v.reviewer_company = r.reviewer_company ∧ v.location = r.location
    ∧ v.source_url = r.source_url ∧ v.raw = r.raw
    ∧ (r.rating = Option.none
        ∨ ∃ q, r.rating = Option.some q ∧ 0 ≤ q ∧ q ≤ 5) := by
  cases hc : pyd_coerce_date pyd r.date with
  | error e =>
    have hv : Review.validate pyd r = Except.error e := by
      simp [Review.validate, hc]
    rw [hv] at h
    exact absurd h (by simp)
  | ok dd =>
    cases hr : r.rating with
    | none =>
      have hv : Review.validate pyd r
          = Except.ok ⟨r.id, r.title, r.review, dd, Option.none,
            r.reviewer_name, r.reviewer_role, r.reviewer_company,
            r.location, r.source_url, r.raw⟩ := by
        simp [Review.validate, hc, hr]
      rw [hv, Except.ok.injEq] at h
      subst h
      exact ⟨rfl, rfl, rfl, rfl, rfl, rfl, rfl, rfl, rfl, rfl, rfl,
        Or.inl rfl⟩
    | some q =>
      by_cases hq : 0 ≤ q ∧ q ≤ 5
      · have hv : Review.validate pyd r
            = Except.ok ⟨r.id, r.title, r.review, dd, Option.some q,
              r.reviewer_name, r.reviewer_role, r.reviewer_company,
              r.location, r.source_url, r.raw⟩ := by
          simp [Review.validate, hc, hr, hq]
        rw [hv, Except.ok.injEq] at h
        subst h
        exact ⟨rfl, rfl, rfl, rfl, rfl, rfl, rfl, rfl, rfl, rfl, rfl,
          Or.inr ⟨q, rfl, hq.1, hq.2⟩⟩
      · have hv : Review.validate pyd r
            = Except.error "rating: out of range" := by
          simp [Review.validate, hc, hr, hq]
        rw [hv] at h
        exact absurd h (by simp)

/-- C1: date-window filter correctness. In the endpoint-level filter
(`_in_range` composed with `List.filter`, applied to all acquisition
modes) and in the per-page filter of the pagination loops
(`keep_record`), a record whose date parses to `d` is retained exactly
when `start <= d <= end`, and a record whose date is absent or does not
parse is always retained. -/
theorem c1_date_window_filter (fuzzy : String → Option PyDate)
    (isoformat : PyDate → String) (start end_ : PyDate) :
    (∀ s d, pdf_str fuzzy s = Option.some d →
      (in_range fuzzy start end_ (DVal.str s) = true
        ↔ (start ≤ d ∧ d ≤ end_)))
    ∧ (∀ s, pdf_str fuzzy s = Option.none →
        in_range fuzzy start end_ (DVal.str s) = true)
    ∧ in_range fuzzy start end_ DVal.none = true
    ∧ (∀ d, in_range fuzzy start end_ (DVal.date d) = true
        ↔ (start ≤ d ∧ d ≤ end_))
    ∧ (∀ (raws : List RawReview) (r : RawReview),
        r ∈ filtered_raws fuzzy start end_ raws
          ↔ r ∈ raws ∧ in_range fuzzy start end_ r.date = true)
    ∧ (∀ (r : RawReview) (d : PyDate),
        parse_dval fuzzy r.date = Option.some d →
        ((keep_record fuzzy isoformat start end_ r).isSome = true
          ↔ (start ≤ d ∧ d ≤ end_)))
    ∧ (∀ r : RawReview, parse_dval fuzzy r.date = Option.none →
        keep_record fuzzy isoformat start end_ r = Option.some r) := by
  refine ⟨?_, ?_, rfl, ?_, ?_, ?_, ?_⟩
  · intro s d h
    exact in_range_parsed fuzzy start end_ s d h
  · intro s h
    simp [in_range, h]
  · intro d
    exact in_range_date fuzzy start end_ d
  · intro raws r
    simp [filtered_raws, List.mem_filter]
  · intro r d h
    simp only [keep_record, h]
    by_cases hw : start ≤ d ∧ d ≤ end_
    · simp [hw]
    · simp [hw]
  · intro r h
    simp [keep_record, h]

/-- Witness for C1 at the concrete parser tables: a parsable in-window
date string is retained, an unparsable one is retained, and a parsable
out-of-window date is dropped by the per-page filter. -/
theorem c1_witness :
    in_range fuzzy0 100 200 (DVal.str "d150") = true
    ∧ in_range fuzzy0 100 200 (DVal.str "junk") = true
    ∧ (keep_record fuzzy0 iso0 100 200
        (mkRaw Option.none Option.none (DVal.str "d020") Option.none
          Option.none Option.none)).isSome = false := by
  have h := c1_date_window_filter fuzzy0 iso0 100 200
  refine ⟨(h.1 "d150" 150 (by decide)).mpr (by decide),
    h.2.1 "junk" (by decide), ?_⟩
  have h6 := h.2.2.2.2.2.1
    (mkRaw Option.none Option.none (DVal.str "d020") Option.none
      Option.none Option.none) 20 (by decide)
  exact Bool.eq_false_iff.mpr (fun hh => absurd (h6.mp hh) (by decide))

/-- C2: invalid-rating rejection. A raw record whose rating lies outside
[0, 5] fails `Review(**r)` validation (the whole record is rejected, not
clamped); `invalid_reviews` equals the number of records of the capped
list that fail validation (so each such record contributes exactly 1);
and every review in the output has rating null or inside [0, 5]. -/
theorem c2_invalid_rating_rejected (fuzzy pyd : String → Option PyDate)
    (start end_ : PyDate) (limit : Option Int) (raws : List RawReview) :
    (∀ r : RawReview, ∀ q : Rat, r.rating = Option.some q →
      ¬(0 ≤ q ∧ q ≤ 5) → (Review.validate pyd r).isOk = false)
    ∧ (scrape_tail fuzzy pyd start end_ limit raws).meta.invalid_reviews
        = ((capped_raws fuzzy start end_ limit raws).filter
            (fun r => !(Review.validate pyd r).isOk)).length
    ∧ (∀ v ∈ (scrape_tail fuzzy pyd start end_ limit raws).reviews,
        v.rating = Option.none
          ∨ ∃ q, v.rating = Option.some q ∧ 0 ≤ q ∧ q ≤ 5) := by
  refine ⟨?_, ?_, ?_⟩
  · intro r q hr hq
    cases hc : pyd_coerce_date pyd r.date with
    | error e => simp [Review.validate, hc, Except.isOk, Except.toBool]
    | ok dd => simp [Review.validate, hc, hr, hq, Except.isOk, Except.toBool]
  · exact normalize_loop_snd pyd _
  · intro v hv
    have h1 : v ∈ (normalize_loop pyd
        (capped_raws fuzzy start end_ limit raws)).1 := hv
    rw [normalize_loop_fst, List.mem_filterMap] at h1
    obtain ⟨r, _, hr⟩ := h1
    have hval : Review.validate pyd r = Except.ok v := by
      cases hvv : Review.validate pyd r with
      | error e => rw [hvv] at hr; simp [Except.toOption] at hr
      | ok w =>
        rw [hvv] at hr
        simp [Except.toOption] at hr
        rw [hr]
    obtain ⟨-, -, -, -, hrat, -, -, -, -, -, -, hbound⟩ :=
      validate_ok_inv pyd r v hval
    cases hbound with
    | inl hb => left; rw [hrat, hb]
    | inr hb =>
      obtain ⟨q, hq, h0, h5⟩ := hb
      right
      exact ⟨q, by rw [hrat, hq], h0, h5⟩

/-- Witness for C2: the record with rating 7 fails validation, is absent
from the output, and is counted once in `invalid_reviews`. -/
theorem c2_witness :
    (Review.validate pyd0 c2_bad_raw).isOk = false
    ∧ (scrape_tail fuzzy0 pyd0 100 200 Option.none
        [c2_bad_raw]).meta.invalid_reviews = 1
    ∧ (scrape_tail fuzzy0 pyd0 100 200 Option.none [c2_bad_raw]).reviews
        = [] := by
  refine ⟨(c2_invalid_rating_rejected fuzzy0 pyd0 100 200 Option.none
      [c2_bad_raw]).1 c2_bad_raw 7 (by decide) (by decide), ?_, by decide⟩
  exact ((c2_invalid_rating_rejected fuzzy0 pyd0 100 200 Option.none
    [c2_bad_raw]).2.1).trans (by decide)

/-- C9: idempotence of normalization. If a raw record validates into a
canonical review `v`, then validating the dumped field map of `v` also
succeeds and returns `v` itself. -/
theorem c9_normalization_idempotent (pyd : String → Option PyDate)
    (r : RawReview) (v : Review)
    (h : Review.validate pyd r = Except.ok v) :
    Review.validate pyd (Review.model_dump v) = Except.ok v := by
  obtain ⟨-, -, -, -, hrat, -, -, -, -, -, -, hbound⟩ :=
    validate_ok_inv pyd r v h
  have hdc : pyd_coerce_date pyd (Review.model_dump v).date
      = Except.ok v.date := by
    cases hd : v.date <;> simp [Review.model_dump, pyd_coerce_date, hd]
  have hmr : (Review.model_dump v).rating = v.rating := rfl
  have hb2 : v.rating = Option.none
      ∨ ∃ q, v.rating = Option.some q ∧ 0 ≤ q ∧ q ≤ 5 := by
    cases hbound with
    | inl hb => left; rw [hrat, hb]
    | inr hb =>
      obtain ⟨q, hq, h0, h5⟩ := hb
      right
      exact ⟨q, by rw [hrat, hq], h0, h5⟩
  cases hb2 with
  | inl hb =>
    simp only [Review.validate, hdc, hmr, hb]
    rw [← hb]
    rfl
  | inr hb =>
    obtain ⟨q, hq, h0, h5⟩ := hb
    simp only [Review.validate, hdc, hmr, hq,
      if_pos (show 0 ≤ q ∧ q ≤ 5 from ⟨h0, h5⟩)]
    rw [← hq]
    rfl

/-- Witness for C9: the concrete record `c9_raw0` validates to `c9_rev0`,
and re-validating the dump of `c9_rev0` returns `c9_rev0` again. -/
theorem c9_witness :
    Review.validate pyd0 (Review.model_dump c9_rev0) = Except.ok c9_rev0 :=
  c9_normalization_idempotent pyd0 c9_raw0 c9_rev0
    (by norm_num [Review.validate, c9_raw0, c9_rev0, mkRaw, pyd_coerce_date])

/-- C4: limit application order. For a request with a nonnegative limit
the post-cap record count is the minimum of the limit and the number of
records that survived the date-window filter (so the cap is applied to
the filtered list, not to the raw extraction), and a positive limit over
a nonempty filtered list never yields an empty capped list. -/
theorem c4_limit_after_filter (fuzzy pyd : String → Option PyDate)
    (start end_ : PyDate) (n : Int) (hn : 0 ≤ n) (raws : List RawReview) :
    (scrape_tail fuzzy pyd start end_ (Option.some n)
        raws).meta.raw_reviews_count
      = min n.toNat (filtered_raws fuzzy start end_ raws).length
    ∧ (0 < n → filtered_raws fuzzy start end_ raws ≠ [] →
        0 < (scrape_tail fuzzy pyd start end_ (Option.some n)
          raws).meta.raw_reviews_count) := by
  have hcount : (scrape_tail fuzzy pyd start end_ (Option.some n)
      raws).meta.raw_reviews_count
      = (capped_raws fuzzy start end_ (Option.some n) raws).length := rfl
  have hc : capped_raws fuzzy start end_ (Option.some n) raws
      = (filtered_raws fuzzy start end_ raws).take n.toNat := by
    simp [capped_raws, pySliceTo, not_lt.mpr hn]
  constructor
  · rw [hcount, hc, List.length_take]
  · intro hpos hne
    rw [hcount, hc, List.length_take]
    have hl : 0 < (filtered_raws fuzzy start end_ raws).length :=
      List.length_pos.mpr hne
    omega

/-- Witness for C4: ten raw records, three in the window, limit 2 — the
capped list has exactly two records (not zero), and both validate. -/
theorem c4_witness :
    (scrape_tail fuzzy0 pyd0 100 200 (Option.some 2)
        c4_raws).meta.raw_reviews_count = 2
    ∧ (scrape_tail fuzzy0 pyd0 100 200 (Option.some 2)
        c4_raws).meta.reviews_found = 2
    ∧ (filtered_raws fuzzy0 100 200 c4_raws).length = 3
    ∧ c4_raws.length = 10 := by
  refine ⟨?_, by decide, by decide, by decide⟩
  exact ((c4_limit_after_filter fuzzy0 pyd0 100 200 2 (by decide)
    c4_raws).1).trans (by decide)

theorem parse_dval_truthy (fuzzy : String → Option PyDate) (v : DVal)
    (d : PyDate) (h : parse_dval fuzzy v = Option.some d) :
    dval_truthy v = true := by
  cases v with
  | none => simp [parse_dval] at h
  | str s =>
    by_cases hs : s = ""
    · rw [hs] at h
      simp [parse_dval, pdf_str] at h
    · simp [dval_truthy, hs]
  | date d2 => rfl

theorem any_parsable_iff (fuzzy : String → Option PyDate)
    (page : List RawReview) :
    any_parsable fuzzy page = true
      ↔ page_parsable_dates fuzzy page ≠ [] := by
  constructor
  · intro h
    rw [any_parsable, List.any_eq_true] at h
    obtain ⟨r, hr, hp⟩ := h
    rw [Option.isSome_iff_exists] at hp
    obtain ⟨d, hd⟩ := hp
    exact List.ne_nil_of_mem (List.mem_filterMap.mpr ⟨r, hr, hd⟩)
  · intro h
    obtain ⟨d, hd⟩ := List.exists_mem_of_ne_nil _ h
    rw [page_parsable_dates, List.mem_filterMap] at hd
    obtain ⟨r, hr, hdr⟩ := hd
    rw [any_parsable, List.any_eq_true]
    exact ⟨r, hr, by rw [hdr]; rfl⟩

theorem any_in_range_iff (fuzzy : String → Option PyDate)
    (start end_ : PyDate) (page : List RawReview) :
    any_in_range fuzzy start end_ page = true
      ↔ ∃ d ∈ page_parsable_dates fuzzy page, start ≤ d ∧ d ≤ end_ := by
  rw [any_in_range, List.any_eq_true]
  constructor
  · rintro ⟨r, hr, hp⟩
    cases hd : parse_dval fuzzy r.date with
    | none => rw [hd] at hp; simp at hp
    | some d =>
      rw [hd] at hp
      simp at hp
      exact ⟨d, List.mem_filterMap.mpr ⟨r, hr, hd⟩, hp⟩
  · rintro ⟨d, hd, hw⟩
    rw [page_parsable_dates, List.mem_filterMap] at hd
    obtain ⟨r, hr, hdr⟩ := hd
    refine ⟨r, hr, ?_⟩
    rw [hdr]
    simp [hw.1, hw.2]

theorem not_any_in_range_iff (fuzzy : String → Option PyDate)
    (start end_ : PyDate) (page : List RawReview) :
    any_in_range fuzzy start end_ page = false
      ↔ ∀ d ∈ page_parsable_dates fuzzy page, ¬(start ≤ d ∧ d ≤ end_) := by
  rw [Bool.eq_false_iff]
  constructor
  · intro h d hd hw
    exact h ((any_in_range_iff fuzzy start end_ page).mpr ⟨d, hd, hw⟩)
  · intro h hc
    obtain ⟨d, hd, hw⟩ := (any_in_range_iff fuzzy start end_ page).mp hc
    exact h d hd hw

theorem older_async_iff (fuzzy : String → Option PyDate) (start : PyDate)
    (page : List RawReview) :
    older_async fuzzy start page = true
      ↔ ∀ d ∈ page_parsable_dates fuzzy page, d < start := by
  rw [older_async, List.all_eq_true]
  constructor
  · intro h d hd
    rw [page_parsable_dates, List.mem_filterMap] at hd
    obtain ⟨r, hr, hdr⟩ := hd
    have ht := parse_dval_truthy fuzzy r.date d hdr
    have h2 := h r hr
    rw [if_pos ht, hdr] at h2
    simpa using h2
  · intro h r hr
    by_cases ht : dval_truthy r.date = true
    · rw [if_pos ht]
      cases hd : parse_dval fuzzy r.date with
      | none => rfl
      | some pd =>
        simp only [decide_eq_true_eq]
        exact h pd (List.mem_filterMap.mpr ⟨r, hr, hd⟩)
    · rw [if_neg ht]

theorem older_sync_iff (fuzzy : String → Option PyDate) (start : PyDate)
    (page : List RawReview) :
    older_sync fuzzy start page = true
      ↔ ((∀ d ∈ page_parsable_dates fuzzy page, d < start)
          ∧ ∀ r ∈ page, dval_truthy r.date = true →
              (parse_dval fuzzy r.date).isSome = true) := by
  rw [older_sync, List.all_eq_true]
  constructor
  · intro h
    constructor
    · intro d hd
      rw [page_parsable_dates, List.mem_filterMap] at hd
      obtain ⟨r, hr, hdr⟩ := hd
      have ht := parse_dval_truthy fuzzy r.date d hdr
      have h2 := h r hr
      rw [if_pos ht, hdr] at h2
      simpa using h2
    · intro r hr ht
      have h2 := h r hr
      rw [if_pos ht] at h2
      cases hd : parse_dval fuzzy r.date with
      | none => rw [hd] at h2; simp at h2
      | some pd => rfl
  · rintro ⟨hall, hpar⟩ r hr
    by_cases ht : dval_truthy r.date = true
    · rw [if_pos ht]
      cases hd : parse_dval fuzzy r.date with
      | none =>
        have hp := hpar r hr ht
        rw [hd] at hp
        simp at hp
      | some pd =>
        simp only [decide_eq_true_eq]
        exact hall pd (List.mem_filterMap.mpr ⟨r, hr, hd⟩)
    · rw [if_neg ht]

theorem scrape_loop_two (stopF : List RawReview → Bool)
    (keep : RawReview → Option RawReview) (p1 p2 : List RawReview)
    (rest : List (List RawReview)) (h1 : p1 ≠ []) (hs1 : stopF p1 = false)
    (h2 : p2 ≠ []) (hs2 : stopF p2 = true) :
    (scrape_loop stopF keep (p1 :: p2 :: rest)).2 = 2 := by
  simp [scrape_loop, h1, h2, hs1, hs2]

/-- C3 (amended): pagination early-stop. The async controller stops
exactly when the condition stated by the claim holds (some parsable date,
none in the window, all strictly older than start). The sync controller
additionally requires every record with a truthy date entry to have a
parsable date, so a page carrying a truthy but unparsable date string
never triggers its early stop. For a page sequence whose first page has
an in-window date and whose second page is nonempty with every record
parsable and strictly older than start, both controllers extract exactly
two pages and never request a third. -/
theorem c3_pagination_early_stop :
    (∀ (fuzzy : String → Option PyDate) (start end_ : PyDate)
        (page : List RawReview),
      should_stop_paging_async fuzzy start end_ page = true
        ↔ claim_stop_condition fuzzy start end_ page)
    ∧ (∀ (fuzzy : String → Option PyDate) (start end_ : PyDate)
        (page : List RawReview),
      should_stop_paging_sync fuzzy start end_ page = true
        ↔ (claim_stop_condition fuzzy start end_ page
            ∧ ∀ r ∈ page, dval_truthy r.date = true →
                (parse_dval fuzzy r.date).isSome = true))
    ∧ (∀ (fuzzy : String → Option PyDate) (isoformat : PyDate → String)
        (start end_ : PyDate) (p1 p2 : List RawReview)
        (rest : List (List RawReview)),
      any_in_range fuzzy start end_ p1 = true →
      p2 ≠ [] →
      all_parsable_older fuzzy start p2 = true →
      (scrape_loop (should_stop_paging_async fuzzy start end_)
          (keep_record fuzzy isoformat start end_)
          (p1 :: p2 :: rest)).2 = 2
        ∧ (scrape_loop (should_stop_paging_sync fuzzy start end_)
            (keep_record fuzzy isoformat start end_)
            (p1 :: p2 :: rest)).2 = 2) := by
  refine ⟨?_, ?_, ?_⟩
  · intro fuzzy start end_ page
    rw [should_stop_paging_async, Bool.and_eq_true, Bool.and_eq_true,
      Bool.not_eq_true', any_parsable_iff, not_any_in_range_iff,
      older_async_iff]
    unfold claim_stop_condition
    tauto
  · intro fuzzy start end_ page
    rw [should_stop_paging_sync, Bool.and_eq_true, Bool.and_eq_true,
      Bool.not_eq_true', any_parsable_iff, not_any_in_range_iff,
      older_sync_iff]
    unfold claim_stop_condition
    tauto
  · intro fuzzy isoformat start end_ p1 p2 rest h1 h2 h3
    have hp1ne : p1 ≠ [] := by
      intro he
      rw [he] at h1
      simp [any_in_range] at h1
    rw [all_parsable_older, List.all_eq_true] at h3
    have hparse : ∀ r ∈ p2, ∃ d, parse_dval fuzzy r.date = Option.some d
        ∧ d < start := by
      intro r hr
      have hx := h3 r hr
      cases hd : parse_dval fuzzy r.date with
      | none => rw [hd] at hx; simp at hx
      | some d =>
        rw [hd] at hx
        simp at hx
        exact ⟨d, rfl, hx⟩
    have hap2 : any_parsable fuzzy p2 = true := by
      obtain ⟨r, hr⟩ := List.exists_mem_of_ne_nil _ h2
      obtain ⟨d, hd, -⟩ := hparse r hr
      rw [any_parsable, List.any_eq_true]
      exact ⟨r, hr, by rw [hd]; rfl⟩
    have hir2 : any_in_range fuzzy start end_ p2 = false := by
      rw [not_any_in_range_iff]
      intro d hd hw
      rw [page_parsable_dates, List.mem_filterMap] at hd
      obtain ⟨r, hr, hdr⟩ := hd
      obtain ⟨d2, hd2, hlt⟩ := hparse r hr
      rw [hdr] at hd2
      rw [Option.some.injEq] at hd2
      subst hd2
      exact absurd hw.1 (not_le.mpr hlt)
    have hold2 : ∀ d ∈ page_parsable_dates fuzzy p2, d < start := by
      intro d hd
      rw [page_parsable_dates, List.mem_filterMap] at hd
      obtain ⟨r, hr, hdr⟩ := hd
      obtain ⟨d2, hd2, hlt⟩ := hparse r hr
      rw [hdr, Option.some.injEq] at hd2
      subst hd2
      exact hlt
    have hstop1a : should_stop_paging_async fuzzy start end_ p1 = false := by
      rw [should_stop_paging_async]
      simp [h1]
    have hstop1s : should_stop_paging_sync fuzzy start end_ p1 = false := by
      rw [should_stop_paging_sync]
      simp [h1]
    have hstop2a : should_stop_paging_async fuzzy start end_ p2 = true := by
      rw [should_stop_paging_async, hap2, hir2,
        (older_async_iff fuzzy start p2).mpr hold2]
      rfl
    have hstop2s : should_stop_paging_sync fuzzy start end_ p2 = true := by
      have hsy : older_sync fuzzy start p2 = true := by
        rw [older_sync_iff]
        refine ⟨hold2, ?_⟩
        intro r hr ht
        obtain ⟨d, hd, -⟩ := hparse r hr
        rw [hd]
        rfl
      rw [should_stop_paging_sync, hap2, hir2, hsy]
      rfl
    exact ⟨scrape_loop_two _ _ p1 p2 rest hp1ne hstop1a h2 hstop2a,
      scrape_loop_two _ _ p1 p2 rest hp1ne hstop1s h2 hstop2s⟩

/-- Witness for C3: in the concrete three-page scenario (page 1
in-window, page 2 all strictly older, page 3 present) both controllers
extract exactly two pages. -/
theorem c3_witness :
    (scrape_loop (should_stop_paging_async fuzzy0 100 200)
        (keep_record fuzzy0 iso0 100 200) [c3_p1, c3_p2, c3_p3]).2 = 2
    ∧ (scrape_loop (should_stop_paging_sync fuzzy0 100 200)
        (keep_record fuzzy0 iso0 100 200) [c3_p1, c3_p2, c3_p3]).2 = 2 :=
  c3_pagination_early_stop.2.2 fuzzy0 iso0 100 200 c3_p1 c3_p2 [c3_p3]
    (by decide) (by decide) (by decide)

/-- Counterexample for C3 as stated: on a page holding one record whose
date parses strictly before the window and one record with a truthy but
unparsable date string, the claimed stop condition holds, yet the sync
controller of `base_scraper.py` does not stop (the async one does). -/
theorem c3_counterexample :
    claim_stop_condition fuzzy0 100 200 c3_cex_page
    ∧ should_stop_paging_sync fuzzy0 100 200 c3_cex_page = false
    ∧ should_stop_paging_async fuzzy0 100 200 c3_cex_page = true := by
  refine ⟨⟨by decide, by decide, by decide⟩, by decide, by decide⟩

/-- C6 (amended): alias resolution priority. In the direct-API
normalizers of both the G2 and Capterra clients the title is computed by
Python `or` over the aliases (title, headline): when the raw `title`
value is present and non-empty it wins; but `or` tests truthiness, not
presence, so a present empty-string title falls through to the headline. -/
theorem c6_alias_priority (fuzzy : String → Option PyDate)
    (isoformat : PyDate → String) :
    (∀ (it : G2ApiItem) (t : String), it.title = Option.some t → t ≠ "" →
      (g2_normalize_item fuzzy isoformat it).title = Option.some t)
    ∧ (∀ (it : CapApiItem) (t : String), it.title = Option.some t →
        t ≠ "" →
        (capterra_normalize_item fuzzy isoformat it).title = Option.some t)
    ∧ (∀ it : G2ApiItem, it.title = Option.some "" →
        (g2_normalize_item fuzzy isoformat it).title = it.headline)
    ∧ (∀ it : CapApiItem, it.title = Option.some "" →
        (capterra_normalize_item fuzzy isoformat it).title = it.headline)
    := by
  refine ⟨?_, ?_, ?_, ?_⟩
  · intro it t ht hne
    simp [g2_normalize_item, mkRaw, pyOrS, ht, hne]
  · intro it t ht hne
    simp [capterra_normalize_item, mkRaw, pyOrS, ht, hne]
  · intro it ht
    simp [g2_normalize_item, mkRaw, pyOrS, ht]
  · intro it ht
    simp [capterra_normalize_item, mkRaw, pyOrS, ht]

/-- Witness for C6: a non-empty title wins over a present headline in the
G2 normalizer. -/
theorem c6_witness :
    (g2_normalize_item fuzzy0 iso0
      { g2_item_blank_title with title := Option.some "Mine" }).title
      = Option.some "Mine" :=
  (c6_alias_priority fuzzy0 iso0).1 _ "Mine" rfl (by decide)

/-- Counterexample for C6 as stated: a record in which both `title` and
`headline` are present but `title` holds the empty string normalizes to
the headline, for both clients. -/
theorem c6_counterexample :
    g2_item_blank_title.title = Option.some ""
    ∧ g2_item_blank_title.headline = Option.some "Great"
    ∧ (g2_normalize_item fuzzy0 iso0 g2_item_blank_title).title
        = Option.some "Great"
    ∧ ¬((g2_normalize_item fuzzy0 iso0 g2_item_blank_title).title
        = Option.some "")
    ∧ (capterra_normalize_item fuzzy0 iso0 cap_item_blank_title).title
        = Option.some "Great"
    ∧ ¬((capterra_normalize_item fuzzy0 iso0 cap_item_blank_title).title
        = Option.some "") := by
  refine ⟨rfl, rfl, by decide, by decide, by decide, by decide⟩

theorem g2_add_items_none (fuzzy : String → Option PyDate)
    (isoformat : PyDate → String) :
    ∀ (items : List G2ApiItem) (coll : List RawReview),
    g2_add_items fuzzy isoformat Option.none items coll
      = (coll ++ items.map (g2_normalize_item fuzzy isoformat), false) := by
  intro items
  induction items with
  | nil => intro coll; simp [g2_add_items]
  | cons it rest ih => intro coll; simp [g2_add_items, ih]

theorem g2_add_items_reached (fuzzy : String → Option PyDate)
    (isoformat : PyDate → String) (n : Int) (hn : 0 < n) :
    ∀ (items : List G2ApiItem) (coll : List RawReview),
    (coll.length : Int) < n →
    n ≤ (coll.length : Int) + items.length →
    g2_add_items fuzzy isoformat (Option.some n) items coll
      = ((coll ++ items.map (g2_normalize_item fuzzy isoformat)).take
          n.toNat, true) := by
  intro items
  induction items with
  | nil =>
    intro coll h1 h2
    simp at h2
    omega
  | cons it rest ih =>
    intro coll h1 h2
    simp only [g2_add_items]
    by_cases hr :
      n ≤ ((coll ++ [g2_normalize_item fuzzy isoformat it]).length : Int)
    · rw [if_pos hr]
      have hsl : pySliceTo n
          (coll ++ [g2_normalize_item fuzzy isoformat it])
          = (coll ++ [g2_normalize_item fuzzy isoformat it]).take
              n.toNat := by
        rw [pySliceTo, if_neg (by omega)]
      rw [hsl]
      have hlen : n.toNat
          ≤ (coll ++ [g2_normalize_item fuzzy isoformat it]).length := by
        simp at hr ⊢
        omega
      rw [show coll ++ (it :: rest).map (g2_normalize_item fuzzy isoformat)
          = (coll ++ [g2_normalize_item fuzzy isoformat it])
            ++ rest.map (g2_normalize_item fuzzy isoformat) from by simp]
      rw [List.take_append_of_le_length hlen]
    · rw [if_neg hr]
      have h1b :
          ((coll ++ [g2_normalize_item fuzzy isoformat it]).length : Int)
            < n := not_le.mp hr
      have h2b : n ≤
          ((coll ++ [g2_normalize_item fuzzy isoformat it]).length : Int)
            + rest.length := by
        simp at h2 ⊢
        omega
      rw [ih _ h1b h2b]
      simp

theorem fetch_g2_go_prefix (fuzzy : String → Option PyDate)
    (isoformat : PyDate → String) :
    ∀ (goodPages : List G2Resp),
    (∀ p ∈ goodPages, p.status < 400 ∧ p.items.length = 50) →
    ∀ (tail_ : List G2Resp) (coll : List RawReview),
    ∃ coll2 : List RawReview,
      fetch_g2_go fuzzy isoformat Option.none (goodPages ++ tail_) coll
        = ((fetch_g2_go fuzzy isoformat Option.none tail_ coll2).1,
           (fetch_g2_go fuzzy isoformat Option.none tail_ coll2).2
             + goodPages.length) := by
  intro goodPages
  induction goodPages with
  | nil =>
    intro hg tail_ coll
    exact ⟨coll, by simp⟩
  | cons p rest ih =>
    intro hg tail_ coll
    obtain ⟨hst, hlen⟩ := hg p (List.mem_cons_self p rest)
    have hne401 : ¬(p.status = 401) := by omega
    have hge : ¬(400 ≤ p.status) := by omega
    have hitems : ¬(p.items = []) := by
      intro he
      rw [he] at hlen
      simp at hlen
    obtain ⟨coll2, hc2⟩ := ih
      (fun q hq => hg q (List.mem_cons_of_mem p hq)) tail_
      (coll ++ p.items.map (g2_normalize_item fuzzy isoformat))
    refine ⟨coll2, ?_⟩
    rw [List.cons_append, fetch_g2_go, if_neg hne401, if_neg hge,
      if_neg hitems]
    simp only [g2_add_items_none, Bool.false_eq_true, if_false, hlen,
      Nat.lt_irrefl, hc2]
    simp [Nat.add_assoc]

/-- C8 (amended): direct data-API client contract of
`fetch_g2_reviews_api`. Over a run of successful full pages (50 items
each): a 401 on the next page raises the distinct unauthorized error
after exactly one request for that page and no request after it (no
retry); any other status of at least 400 raises the error carrying the
status and the response body truncated to 300 characters, likewise
without retry; with no limit set, a successful page with fewer than 50
items (or none) ends the pagination exactly there with a success, and
full pages alone never end it early (one request per page); but when a
limit is set, the client returns `collected[:limit]` as soon as the
collected count reaches the limit - possibly in the middle of a full
page, so limit-bearing runs terminate without a short or empty page. -/
theorem c8_g2_api_client (fuzzy : String → Option PyDate)
    (isoformat : PyDate → String) (goodPages : List G2Resp)
    (hgood : ∀ p ∈ goodPages, p.status < 400 ∧ p.items.length = 50)
    (r : G2Resp) (rest : List G2Resp) :
    (r.status = 401 →
      fetch_g2_reviews_api fuzzy isoformat Option.none
          (goodPages ++ r :: rest)
        = (Except.error G2ApiError.unauthorized, goodPages.length + 1))
    ∧ (r.status ≠ 401 → 400 ≤ r.status →
      fetch_g2_reviews_api fuzzy isoformat Option.none
          (goodPages ++ r :: rest)
        = (Except.error (G2ApiError.apiError r.status (r.text.take 300)),
           goodPages.length + 1))
    ∧ (r.status < 400 → r.items.length < 50 →
      ((fetch_g2_reviews_api fuzzy isoformat Option.none
          (goodPages ++ r :: rest)).2 = goodPages.length + 1
        ∧ ∃ l, (fetch_g2_reviews_api fuzzy isoformat Option.none
            (goodPages ++ r :: rest)).1 = Except.ok l))
    ∧ (fetch_g2_reviews_api fuzzy isoformat Option.none goodPages).2
        = goodPages.length
    ∧ (∀ n : Int, 0 < n → r.status < 400 → n ≤ (r.items.length : Int) →
      fetch_g2_reviews_api fuzzy isoformat (Option.some n) (r :: rest)
        = (Except.ok ((r.items.map
            (g2_normalize_item fuzzy isoformat)).take n.toNat), 1)) := by
  obtain ⟨coll2, hc⟩ :=
    fetch_g2_go_prefix fuzzy isoformat goodPages hgood (r :: rest) []
  obtain ⟨coll3, hc3⟩ :=
    fetch_g2_go_prefix fuzzy isoformat goodPages hgood [] []
  refine ⟨?_, ?_, ?_, ?_, ?_⟩
  · intro h401
    rw [fetch_g2_reviews_api, hc, fetch_g2_go, if_pos h401]
    simp [Nat.add_comm]
  · intro hne hge
    rw [fetch_g2_reviews_api, hc, fetch_g2_go, if_neg hne, if_pos hge]
    simp [Nat.add_comm]
  · intro hst hshort
    have hfetch : ∃ l, fetch_g2_go fuzzy isoformat Option.none
        (r :: rest) coll2 = (Except.ok l, 1) := by
      rw [fetch_g2_go, if_neg (by omega), if_neg (by omega)]
      by_cases hi : r.items = []
      · rw [if_pos hi]
        exact ⟨coll2, rfl⟩
      · rw [if_neg hi]
        simp only [g2_add_items_none, Bool.false_eq_true, if_false]
        rw [if_pos hshort]
        exact ⟨_, rfl⟩
    obtain ⟨l, hl⟩ := hfetch
    rw [fetch_g2_reviews_api, hc, hl]
    exact ⟨by simp [Nat.add_comm], l, rfl⟩
  · rw [List.append_nil] at hc3
    rw [fetch_g2_reviews_api, hc3]
    simp [fetch_g2_go]
  · intro n hn hst hreach
    have hne : ¬(r.items = []) := by
      intro he
      rw [he] at hreach
      simp at hreach
      omega
    rw [fetch_g2_reviews_api, fetch_g2_go, if_neg (by omega),
      if_neg (by omega), if_neg hne]
    rw [g2_add_items_reached fuzzy isoformat n hn r.items []
      (by simpa using hn) (by simpa using hreach)]
    simp

/-- Witness for C8: one full page followed by a one-item page makes
exactly two requests and succeeds. -/
theorem c8_witness :
    (fetch_g2_reviews_api fuzzy0 iso0 Option.none
        [c8_resp_full, c8_resp_short]).2 = 2
    ∧ ∃ l, (fetch_g2_reviews_api fuzzy0 iso0 Option.none
        [c8_resp_full, c8_resp_short]).1 = Except.ok l :=
  (c8_g2_api_client fuzzy0 iso0 [c8_resp_full]
    (by intro p hp; simp at hp; subst hp; constructor <;> decide)
    c8_resp_short []).2.2.1 (by decide) (by decide)

/-- Counterexample for C8 as stated: with `limit = 1` the client
terminates after its first request even though that page carried the full
50 items (it is neither short nor empty) and a further page existed - it
returns `collected[:1]` from the middle of the page. So the client does
not terminate exactly when a page is short or empty. -/
theorem c8_counterexample :
    c8_resp_full.items.length = 50
    ∧ ¬(c8_resp_full.items.length < 50 ∨ c8_resp_full.items = [])
    ∧ (fetch_g2_reviews_api fuzzy0 iso0 (Option.some 1)
        [c8_resp_full, c8_resp_short]).2 = 1
    ∧ ((fetch_g2_reviews_api fuzzy0 iso0 (Option.some 1)
        [c8_resp_full, c8_resp_short]).1).toOption
      = Option.some [g2_normalize_item fuzzy0 iso0 g2item0] := by
  refine ⟨by decide, by decide, by decide, by decide⟩

theorem ld_c5_node (fuzzy : String → Option PyDate)
    (isoformat : PyDate → String) (s : String) (hs : s ≠ "") :
    ld_node_to_raw fuzzy isoformat (c5_node s)
      = mkRaw Option.none Option.none
          (apiDateEntry isoformat (pdf_str fuzzy s) (Option.some s))
          Option.none Option.none Option.none := by
  simp [ld_node_to_raw, c5_node, pyOrS, hs]

theorem c5_parse_eval (fuzzy : String → Option PyDate)
    (isoformat : PyDate → String) (s1 s2 s3 s4 : String)
    (h1 : s1 ≠ "") (h2 : s2 ≠ "") (h3 : s3 ≠ "") (h4 : s4 ≠ "") :
    parse_g2_reviews_from_html fuzzy isoformat (c5_scripts s1 s2 s3 s4)
      = [mkRaw Option.none Option.none
          (apiDateEntry isoformat (pdf_str fuzzy s1) (Option.some s1))
          Option.none Option.none Option.none,
         mkRaw Option.none Option.none
          (apiDateEntry isoformat (pdf_str fuzzy s2) (Option.some s2))
          Option.none Option.none Option.none,
         mkRaw Option.none Option.none
          (apiDateEntry isoformat (pdf_str fuzzy s3) (Option.some s3))
          Option.none Option.none Option.none,
         mkRaw Option.none Option.none
          (apiDateEntry isoformat (pdf_str fuzzy s4) (Option.some s4))
          Option.none Option.none Option.none] := by
  have hty : ∀ s : String, (c5_node s).atType = "Review" := fun s => rfl
  simp [parse_g2_reviews_from_html, c5_scripts, hty,
    ld_c5_node fuzzy isoformat s1 h1, ld_c5_node fuzzy isoformat s2 h2,
    ld_c5_node fuzzy isoformat s3 h3, ld_c5_node fuzzy isoformat s4 h4]

/-- C5 (amended): end-to-end offline-snapshot scenario. For a snapshot
with four JSON-LD Review blocks - two with dates in the window, one with
a date before the window, one with an unparsable date - the extraction
yields 4 raw records, the window filter keeps 3 of them, and the
unparsable-date record then fails schema validation (its date string
cannot be coerced to a calendar date), so the response carries exactly 2
reviews and the metadata reports raw_reviews_count = 3 (the post-filter
count, not the extraction count 4), reviews_found = 2 and
invalid_reviews = 1. -/
theorem c5_offline_snapshot (fuzzy pyd : String → Option PyDate)
    (isoformat : PyDate → String) (start end_ d1 d2 d3 : PyDate)
    (s1 s2 s3 s4 : String)
    (h1 : pdf_str fuzzy s1 = Option.some d1)
    (h1w : start ≤ d1 ∧ d1 ≤ end_)
    (h1f : pdf_str fuzzy (isoformat d1) = Option.some d1)
    (h1p : pyd (isoformat d1) = Option.some d1)
    (h2 : pdf_str fuzzy s2 = Option.some d2)
    (h2w : start ≤ d2 ∧ d2 ≤ end_)
    (h2f : pdf_str fuzzy (isoformat d2) = Option.some d2)
    (h2p : pyd (isoformat d2) = Option.some d2)
    (h3 : pdf_str fuzzy s3 = Option.some d3)
    (h3b : d3 < start)
    (h3f : pdf_str fuzzy (isoformat d3) = Option.some d3)
    (h4 : pdf_str fuzzy s4 = Option.none)
    (h4e : s4 ≠ "")
    (h4p : pyd s4 = Option.none) :
    (scrape_tail fuzzy pyd start end_ Option.none
        (parse_g2_reviews_from_html fuzzy isoformat
          (c5_scripts s1 s2 s3 s4))).reviews.length = 2
    ∧ (scrape_tail fuzzy pyd start end_ Option.none
        (parse_g2_reviews_from_html fuzzy isoformat
          (c5_scripts s1 s2 s3 s4))).meta.raw_reviews_count = 3
    ∧ (scrape_tail fuzzy pyd start end_ Option.none
        (parse_g2_reviews_from_html fuzzy isoformat
          (c5_scripts s1 s2 s3 s4))).meta.reviews_found = 2
    ∧ (scrape_tail fuzzy pyd start end_ Option.none
        (parse_g2_reviews_from_html fuzzy isoformat
          (c5_scripts s1 s2 s3 s4))).meta.invalid_reviews = 1
    ∧ (parse_g2_reviews_from_html fuzzy isoformat
        (c5_scripts s1 s2 s3 s4)).length = 4 := by
  have hs1 : s1 ≠ "" := by
    intro he
    rw [he] at h1
    simp [pdf_str] at h1
  have hs2 : s2 ≠ "" := by
    intro he
    rw [he] at h2
    simp [pdf_str] at h2
  have hs3 : s3 ≠ "" := by
    intro he
    rw [he] at h3
    simp [pdf_str] at h3
  have hparse := c5_parse_eval fuzzy isoformat s1 s2 s3 s4 hs1 hs2 hs3 h4e
  have e1 : apiDateEntry isoformat (pdf_str fuzzy s1) (Option.some s1)
      = DVal.str (isoformat d1) := by
    rw [h1]
    rfl
  have e2 : apiDateEntry isoformat (pdf_str fuzzy s2) (Option.some s2)
      = DVal.str (isoformat d2) := by
    rw [h2]
    rfl
  have e3 : apiDateEntry isoformat (pdf_str fuzzy s3) (Option.some s3)
      = DVal.str (isoformat d3) := by
    rw [h3]
    rfl
  have e4 : apiDateEntry isoformat (pdf_str fuzzy s4) (Option.some s4)
      = DVal.str s4 := by
    rw [h4]
    rfl
  rw [e1, e2, e3, e4] at hparse
  have b1 : in_range fuzzy start end_ (DVal.str (isoformat d1)) = true :=
    (in_range_parsed fuzzy start end_ (isoformat d1) d1 h1f).mpr h1w
  have b2 : in_range fuzzy start end_ (DVal.str (isoformat d2)) = true :=
    (in_range_parsed fuzzy start end_ (isoformat d2) d2 h2f).mpr h2w
  have b3 : in_range fuzzy start end_ (DVal.str (isoformat d3)) = false :=
    Bool.eq_false_iff.mpr (fun hh =>
      absurd ((in_range_parsed fuzzy start end_ (isoformat d3) d3
        h3f).mp hh).1 (not_le.mpr h3b))
  have b4 : in_range fuzzy start end_ (DVal.str s4) = true := by
    simp [in_range, h4]
  have hfil : filtered_raws fuzzy start end_
      [mkRaw Option.none Option.none (DVal.str (isoformat d1)) Option.none
        Option.none Option.none,
       mkRaw Option.none Option.none (DVal.str (isoformat d2)) Option.none
        Option.none Option.none,
       mkRaw Option.none Option.none (DVal.str (isoformat d3)) Option.none
        Option.none Option.none,
       mkRaw Option.none Option.none (DVal.str s4) Option.none Option.none
        Option.none]
      = [mkRaw Option.none Option.none (DVal.str (isoformat d1))
          Option.none Option.none Option.none,
         mkRaw Option.none Option.none (DVal.str (isoformat d2))
          Option.none Option.none Option.none,
         mkRaw Option.none Option.none (DVal.str s4) Option.none
          Option.none Option.none] := by
    simp [filtered_raws, mkRaw, b1, b2, b3, b4]
  have hP : capped_raws fuzzy start end_ Option.none
      (parse_g2_reviews_from_html fuzzy isoformat (c5_scripts s1 s2 s3 s4))
      = [mkRaw Option.none Option.none (DVal.str (isoformat d1))
          Option.none Option.none Option.none,
         mkRaw Option.none Option.none (DVal.str (isoformat d2))
          Option.none Option.none Option.none,
         mkRaw Option.none Option.none (DVal.str s4) Option.none
          Option.none Option.none] := by
    show filtered_raws fuzzy start end_
      (parse_g2_reviews_from_html fuzzy isoformat
        (c5_scripts s1 s2 s3 s4)) = _
    rw [hparse]
    exact hfil
  have v1 : Review.validate pyd
      (mkRaw Option.none Option.none (DVal.str (isoformat d1)) Option.none
        Option.none Option.none)
      = Except.ok ⟨Option.none, Option.none, Option.none, Option.some d1,
          Option.none, Option.none, Option.none, Option.none, Option.none,
          Option.none, Option.none⟩ := by
    simp [Review.validate, mkRaw, pyd_coerce_date, h1p]
  have v2 : Review.validate pyd
      (mkRaw Option.none Option.none (DVal.str (isoformat d2)) Option.none
        Option.none Option.none)
      = Except.ok ⟨Option.none, Option.none, Option.none, Option.some d2,
          Option.none, Option.none, Option.none, Option.none, Option.none,
          Option.none, Option.none⟩ := by
    simp [Review.validate, mkRaw, pyd_coerce_date, h2p]
  have v4 : Review.validate pyd
      (mkRaw Option.none Option.none (DVal.str s4) Option.none Option.none
        Option.none)
      = Except.error "date: invalid date format" := by
    simp [Review.validate, mkRaw, pyd_coerce_date, h4p]
  have hnl : normalize_loop pyd
      [mkRaw Option.none Option.none (DVal.str (isoformat d1)) Option.none
        Option.none Option.none,
       mkRaw Option.none Option.none (DVal.str (isoformat d2)) Option.none
        Option.none Option.none,
       mkRaw Option.none Option.none (DVal.str s4) Option.none Option.none
        Option.none]
      = ([⟨Option.none, Option.none, Option.none, Option.some d1,
          Option.none, Option.none, Option.none, Option.none, Option.none,
          Option.none, Option.none⟩,
          ⟨Option.none, Option.none, Option.none, Option.some d2,
          Option.none, Option.none, Option.none, Option.none, Option.none,
          Option.none, Option.none⟩], 1) := by
    simp [normalize_loop, v1, v2, v4]
  refine ⟨?_, ?_, ?_, ?_, ?_⟩
  · show (normalize_loop pyd (capped_raws fuzzy start end_ Option.none
      (parse_g2_reviews_from_html fuzzy isoformat
        (c5_scripts s1 s2 s3 s4)))).1.length = 2
    rw [hP, hnl]
    rfl
  · show (capped_raws fuzzy start end_ Option.none
      (parse_g2_reviews_from_html fuzzy isoformat
        (c5_scripts s1 s2 s3 s4))).length = 3
    rw [hP]
    rfl
  · show (normalize_loop pyd (capped_raws fuzzy start end_ Option.none
      (parse_g2_reviews_from_html fuzzy isoformat
        (c5_scripts s1 s2 s3 s4)))).1.length = 2
    rw [hP, hnl]
    rfl
  · show (normalize_loop pyd (capped_raws fuzzy start end_ Option.none
      (parse_g2_reviews_from_html fuzzy isoformat
        (c5_scripts s1 s2 s3 s4)))).2 = 1
    rw [hP, hnl]
  · rw [hparse]
    rfl

/-- Counterexample for C5 as stated: on the concrete four-block fixture
(two dates in the window [100, 200], one before it, one unparsable), the
pipeline returns 2 reviews, reports raw_reviews_count = 3 (the count
after the window filter, not the extraction count) and reviews_found = 2,
contradicting the claimed 3 reviews, raw_reviews_count = 4 and
reviews_found = 3. -/
theorem c5_counterexample :
    (scrape_tail fuzzy0 pyd0 100 200 Option.none
        (parse_g2_reviews_from_html fuzzy0 iso0
          (c5_scripts "d150" "d180" "d050" "junk"))).meta.raw_reviews_count
      = 3
    ∧ (scrape_tail fuzzy0 pyd0 100 200 Option.none
        (parse_g2_reviews_from_html fuzzy0 iso0
          (c5_scripts "d150" "d180" "d050" "junk"))).meta.reviews_found = 2
    ∧ (scrape_tail fuzzy0 pyd0 100 200 Option.none
        (parse_g2_reviews_from_html fuzzy0 iso0
          (c5_scripts "d150" "d180" "d050" "junk"))).reviews.length = 2
    ∧ (scrape_tail fuzzy0 pyd0 100 200 Option.none
        (parse_g2_reviews_from_html fuzzy0 iso0
          (c5_scripts "d150" "d180" "d050" "junk"))).meta.invalid_reviews
      = 1
    ∧ ¬((scrape_tail fuzzy0 pyd0 100 200 Option.none
          (parse_g2_reviews_from_html fuzzy0 iso0
            (c5_scripts "d150" "d180" "d050" "junk"))).meta.raw_reviews_count
        = 4
      ∧ (scrape_tail fuzzy0 pyd0 100 200 Option.none
          (parse_g2_reviews_from_html fuzzy0 iso0
            (c5_scripts "d150" "d180" "d050" "junk"))).meta.reviews_found
        = 3
      ∧ (scrape_tail fuzzy0 pyd0 100 200 Option.none
          (parse_g2_reviews_from_html fuzzy0 iso0
            (c5_scripts "d150" "d180" "d050" "junk"))).reviews.length
        = 3) := by
  refine ⟨by decide, by decide, by decide, by decide, by decide⟩

/-- Witness for C5: the amended theorem applied at the concrete fixture. -/
theorem c5_witness :
    (scrape_tail fuzzy0 pyd0 100 200 Option.none
        (parse_g2_reviews_from_html fuzzy0 iso0
          (c5_scripts "d150" "d180" "d050" "junk"))).reviews.length = 2 :=
  (c5_offline_snapshot fuzzy0 pyd0 iso0 100 200 150 180 50
    "d150" "d180" "d050" "junk"
    (by decide) (by decide) (by decide) (by decide)
    (by decide) (by decide) (by decide) (by decide)
    (by decide) (by decide) (by decide)
    (by decide) (by decide) (by decide)).1
